import Mathlib

/-!
# rustybug — shallow embedding and verification of the spec's claims

This file embeds the inferior-control engine of the `rustybug` debugger
(sources: `src/commands.rs`, `src/process.rs`, `src/lib.rs`, `src/elf.rs`,
`src/linux.rs`, `src/main.rs`) in Lean 4 and settles the frozen claims
about it.

Modelling conventions:
 * machine integers are `Nat`/`Int` with explicit wrap-around (`% 2^64`,
   `% 256`) where the Rust code can overflow or truncate;
 * kernel interactions (`waitpid`, `ptrace` calls, procfs reads) are inputs:
   each operation's response is drawn from an explicit environment record,
   and the ptrace requests a function issues are recorded in an `Action`
   trace so that claims about "what was sent to the inferior" are statable;
 * fallible Rust functions returning `Result` become `Except`; the one
   `unimplemented!` arm of `wait_on_signal` becomes a distinguished
   `panicked` outcome;
 * `breakpoint.rs` and `ptrace_control.rs` are declared in `lib.rs`
   (`pub mod breakpoint; pub mod ptrace_control;`) but are not among the
   sources; their behaviour is modelled from the spec (see the doc comments
   starting with `Modelled from the spec:`). Everything else is translated
   from the Rust sources directly.
-/

namespace Rustybug

/-- Subset of `nix::sys::signal::Signal` used by the debugger. -/
inductive Signal where
  | SIGHUP | SIGINT | SIGQUIT | SIGILL | SIGTRAP | SIGABRT | SIGBUS
  | SIGFPE | SIGKILL | SIGUSR1 | SIGSEGV | SIGUSR2 | SIGPIPE | SIGALRM
  | SIGTERM | SIGCHLD | SIGCONT | SIGSTOP
deriving DecidableEq, Repr

/-- Kernel error codes as far as the embedded code distinguishes them. -/
inductive Errno where
  | ECHILD | EPERM | ESRCH | EIO | UnknownErrno
deriving DecidableEq, Repr

/-- Decidable equality on `Except`, so concrete runs of the embedded
fallible operations can be checked by `decide`. -/
instance {ε α : Type} [DecidableEq ε] [DecidableEq α] : DecidableEq (Except ε α) := fun a b =>
  match a, b with
  | .error e, .error f =>
    if h : e = f then .isTrue (by rw [h]) else .isFalse (by intro hh; cases hh; exact h rfl)
  | .error _, .ok _ => .isFalse (by intro h; cases h)
  | .ok _, .error _ => .isFalse (by intro h; cases h)
  | .ok x, .ok y =>
    if h : x = y then .isTrue (by rw [h]) else .isFalse (by intro hh; cases hh; exact h rfl)

/-- `process.rs`: `enum TrapType`. -/
inductive TrapType where
  | SingleStep | SoftwareBreak | HardwareBreak
deriving DecidableEq, Repr

/-- `process.rs`: `enum Event` (decoded ptrace event). -/
inductive Event where
  | Exit | Exec | Fork | Vfork | Spawn
deriving DecidableEq, Repr

/-- `process.rs`: `impl TryFrom<i32> for Event`. The `PTRACE_EVENT_*`
constants are 1 (fork), 2 (vfork), 3 (clone), 4 (exec), 6 (exit). -/
def Event.tryFrom (event : Int) : Except Errno Event :=
  if event = 1 then .ok .Fork
  else if event = 2 then .ok .Vfork
  else if event = 3 then .ok .Spawn
  else if event = 4 then .ok .Exec
  else if event = 6 then .ok .Exit
  else .error .UnknownErrno

/-- `process.rs`: `enum State`. -/
inductive State where
  | Stopped | Running | Exited | Terminated
deriving DecidableEq, Repr

/-- `process.rs`: `State::is_closed`. -/
def State.is_closed (s : State) : Bool :=
  s = .Exited || s = .Terminated

/-- `process.rs`: `enum Info`. -/
inductive Info where
  | Signalled (sig : Signal)
  | Return (code : Nat)
deriving DecidableEq, Repr

/-- `process.rs`: `struct StopReason`. -/
structure StopReason where
  reason : State
  info : Info
  event : Option Event
  trap_reason : Option TrapType
deriving DecidableEq, Repr

/-- `process.rs`: `StopReason::new` (event and trap reason start out empty). -/
def StopReason.new (reason : State) (info : Info) : StopReason :=
  { reason := reason, info := info, event := none, trap_reason := none }

/-- `process.rs`: `enum ProcessError`. -/
inductive ProcessError where
  | NoPid | LaunchFailed | AttachFailed | WaitFailed | ContinueFailed
  | SingleStepFailed | Timeout | WriteFailed | RegisterReadFailed
  | FpRegisterReadFailed | RegisterWriteFailed | FpRegisterWriteFailed
  | BreakpointSetFailed | KillFailed
deriving DecidableEq, Repr

/-- Modelled from the spec: `breakpoint.rs` is not among the sources.
Per spec §3 a breakpoint record carries an identifier, the (bias-corrected)
target address, the saved original byte, and enabled/armed flags. -/
structure Breakpoint where
  id : Nat
  addr : Nat
  saved : Nat
  enabled : Bool
  armed : Bool
deriving DecidableEq, Repr

/-- `process.rs`: `struct Process`. The stdout reader handle is modelled as
a plain flag (it is only ever checked for presence by the embedded code). -/
structure Process where
  pid : Nat
  has_stdout_reader : Bool
  addr_offset : Nat
  terminate_on_end : Bool
  state : State
  breakpoints : List Breakpoint
deriving DecidableEq, Repr

/-- `siginfo_t` as far as the code reads it: only `si_code`. -/
structure SigInfo where
  si_code : Int
deriving DecidableEq, Repr

/-- `nix::sys::wait::WaitStatus`, with the variants `wait_on_signal`
matches on; `other` stands for the remaining variants, which hit the
`unimplemented!` arm. -/
inductive WaitStatus where
  | StillAlive
  | Exited (pid : Nat) (ret_code : Int)
  | Stopped (pid : Nat) (signal : Signal)
  | Signaled (pid : Nat) (signal : Signal) (core_dumped : Bool)
  | PtraceEvent (pid : Nat) (signal : Signal) (event : Int)
  | other
deriving DecidableEq, Repr

/-- Kernel responses consumed by `wait_on_signal`: the `waitpid` status and
the `ptrace::getsiginfo` record, each as a function of the pid asked for. -/
structure KernelEnv where
  waitpid : Nat → Except Errno WaitStatus
  getsiginfo : Nat → Except Errno SigInfo

/-- Outcome of one `wait_on_signal` call: the `unimplemented!` arm is the
`panicked` outcome; otherwise an error or a decoded optional stop reason,
paired with the mutated process. -/
inductive WaitOutcome where
  | panicked
  | fail (e : ProcessError) (p : Process)
  | done (r : Option StopReason) (p : Process)
deriving DecidableEq, Repr

/-- Rust `ret_code as u8` for `ret_code : i32`: truncation to 8 bits. -/
def u8cast (code : Int) : Nat := (code % 256).toNat

/-- `wait_on_signal`'s trap classification constants (`process.rs`):
`TRAP_TRACE = 2`, `TRAP_HWBKPT = 4`, `SI_KERNEL = 0x80`. -/
def classifyTrap (si_code : Int) : Option TrapType :=
  if si_code = 2 then some .SingleStep
  else if si_code = 0x80 then some .SoftwareBreak
  else if si_code = 4 then some .HardwareBreak
  else none

/-- `process.rs`: `Process::wait_on_signal`. Decodes the non-blocking
`waitpid` status, zeroes the stored pid when the tracked child exited,
then — whenever a stop reason is being returned — consults
`ptrace::getsiginfo` on the (possibly just-zeroed) stored pid to fill in
`trap_reason`, and finally commits the new lifecycle state. -/
def Process.wait_on_signal (p : Process) (env : KernelEnv) : WaitOutcome :=
  match env.waitpid p.pid with
  | .error _ => .fail .WaitFailed p
  | .ok ws =>
    let decoded : Option (Option StopReason × State × Nat) :=
      match ws with
      | .StillAlive => some (none, p.state, p.pid)
      | .Exited child ret_code =>
        let r := StopReason.new .Exited (.Return (u8cast ret_code))
        if child = p.pid then some (some r, .Exited, 0)
        else some (some r, .Running, p.pid)
      | .Stopped _ signal =>
        some (some (StopReason.new .Stopped (.Signalled signal)), .Stopped, p.pid)
      | .Signaled _ signal _ =>
        some (some (StopReason.new .Terminated (.Signalled signal)), .Terminated, p.pid)
      | .PtraceEvent _ signal event =>
        let ev := match Event.tryFrom event with
          | .ok e => some e
          | .error _ => none
        let r := { StopReason.new .Stopped (.Signalled signal) with event := ev }
        some (some r, .Stopped, p.pid)
      | .other => none
    match decoded with
    | none => .panicked
    | some (ret, st, newPid) =>
      let ret := match ret with
        | none => none
        | some r =>
          match env.getsiginfo newPid with
          | .ok si => some { r with trap_reason := classifyTrap si.si_code }
          | .error _ => some r
      .done ret { p with pid := newPid, state := st }

/-- Ptrace requests and signals a controller operation sends to the
inferior, recorded as a trace. `logClash` records the "breakpoint clashes"
error log emitted when several breakpoints report a hit at once. -/
inductive Action where
  | contExec
  | singleStep
  | waitReap
  | setPc (addr : Nat)
  | disarm (id : Nat)
  | arm (id : Nat)
  | detach
  | killSig (sig : Signal)
  | readGpRegs
  | readFpRegs
  | logClash
deriving DecidableEq, Repr

/-- Results of the ptrace primitives `resume`/`step` invoke
(`ptrace_control.rs` and `breakpoint.rs` are not among the sources; each
call site's outcome is an environment input). `readPc` is the program
counter read used by breakpoint hit detection. -/
structure PtraceEnv where
  readPc : Except Errno Nat
  contResult : Except Errno Unit
  stepResult : Except Errno Unit
  jumpResult : Except Errno Unit
  processResult : Except Errno Unit

/-- Modelled from the spec: `breakpoint.rs` is not among the sources.
Spec §4.4 `has_hit`: true iff the stopped inferior's program counter
equals `bp.addr + 1`. -/
def Breakpoint.has_hit (bp : Breakpoint) (pc : Nat) : Bool :=
  pc = bp.addr + 1

/-- The `Vec<&mut Breakpoint>` both `resume` and `step` build: the stored
breakpoints whose `has_hit(pid)` returns true, `unwrap_or_default()`
turning a failed program-counter read into `false`. -/
def Process.hitBreakpoints (p : Process) (env : PtraceEnv) : List Breakpoint :=
  p.breakpoints.filter fun bp =>
    match env.readPc with
    | .ok pc => bp.has_hit pc
    | .error _ => false

/-- Replaces the first list element satisfying `pred` by `f` of it. -/
def updateFirst (pred : Breakpoint → Bool) (f : Breakpoint → Breakpoint) :
    List Breakpoint → List Breakpoint
  | [] => []
  | bp :: rest =>
    if pred bp then f bp :: rest else bp :: updateFirst pred f rest

/-- The hit predicate used by `hitBreakpoints`, named so the mutation of
`bps[0]` (a mutable borrow into `breakpoints`) can be expressed. -/
def hitPred (env : PtraceEnv) (bp : Breakpoint) : Bool :=
  match env.readPc with
  | .ok pc => bp.has_hit pc
  | .error _ => false

/-- `process.rs`: `Process::resume`. If no breakpoint reports a hit, a
plain `PTRACE_CONT`; otherwise the first hit breakpoint is stepped over
(`jump_to` rewinds the program counter to the breakpoint address, then
`process(pid, true)` — modelled from the spec, §4.4/§4.7/§9: disarm,
single-step, reap the resulting stop, re-arm) before continuing. On
success the state becomes `Running`. More than one hit logs the clash and
the first is chosen. -/
def Process.resume (p : Process) (env : PtraceEnv) :
    Except ProcessError Process × List Action :=
  let logA : List Action := if (p.hitBreakpoints env).length > 1 then [.logClash] else []
  match p.hitBreakpoints env with
  | [] =>
    match env.contResult with
    | .error _ => (.error .ContinueFailed, logA ++ [.contExec])
    | .ok _ => (.ok { p with state := .Running }, logA ++ [.contExec])
  | bp :: _ =>
    match env.jumpResult with
    | .error _ => (.error .ContinueFailed, logA ++ [.setPc bp.addr])
    | .ok _ =>
      match env.processResult with
      | .error _ => (.error .ContinueFailed, logA ++ [.setPc bp.addr, .disarm bp.id])
      | .ok _ =>
        let stepOver : List Action :=
          [.setPc bp.addr, .disarm bp.id, .singleStep, .waitReap, .arm bp.id]
        match env.contResult with
        | .error _ => (.error .ContinueFailed, logA ++ stepOver)
        | .ok _ =>
          (.ok { p with
                  state := .Running,
                  breakpoints := updateFirst (hitPred env)
                    (fun b => { b with armed := true }) p.breakpoints },
           logA ++ stepOver ++ [.contExec])

/-- `process.rs`: `Process::step`. If a breakpoint reports a hit,
`process(pid, true)` is invoked on the first one (modelled from the spec,
§4.7/§9: in `step` the source disarms the breakpoint and rewinds the
program counter but does **not** re-arm), then a plain
`PTRACE_SINGLESTEP` is issued; no wait of any kind is performed, and the
state is set to `Stopped` immediately. -/
def Process.step (p : Process) (env : PtraceEnv) :
    Except ProcessError Process × List Action :=
  let logA : List Action := if (p.hitBreakpoints env).length > 1 then [.logClash] else []
  match p.hitBreakpoints env with
  | [] =>
    match env.stepResult with
    | .error _ => (.error .SingleStepFailed, logA ++ [.singleStep])
    | .ok _ => (.ok { p with state := .Stopped }, logA ++ [.singleStep])
  | bp :: _ =>
    match env.processResult with
    | .error _ => (.error .ContinueFailed, logA ++ [.disarm bp.id, .setPc bp.addr])
    | .ok _ =>
      match env.stepResult with
      | .error _ =>
        (.error .SingleStepFailed, logA ++ [.disarm bp.id, .setPc bp.addr, .singleStep])
      | .ok _ =>
        (.ok { p with
                state := .Stopped,
                breakpoints := updateFirst (hitPred env)
                  (fun b => { b with armed := false }) p.breakpoints },
         logA ++ [.disarm bp.id, .setPc bp.addr, .singleStep])

/-- Environment for `Breakpoint::new` (in the missing `breakpoint.rs`):
whether installation succeeds, the identifier it hands out, and the
original low byte read from the target address. -/
structure BreakpointEnv where
  newResult : Except Errno Unit
  newId : Nat
  savedByte : Nat

/-- `process.rs`: `Process::set_breakpoint`. The breakpoint is installed at
`addr + self.addr_offset` (wrapping 64-bit addition) — the stored load
bias is added to the caller's address. `Breakpoint::new` is modelled from
the spec (§4.4 `add`): the record starts out enabled and armed. -/
def Process.set_breakpoint (p : Process) (addr : Nat) (env : BreakpointEnv) :
    Except ProcessError (Nat × Process) :=
  let target := (addr + p.addr_offset) % 2 ^ 64
  match env.newResult with
  | .error _ => .error .BreakpointSetFailed
  | .ok _ =>
    let bp : Breakpoint :=
      { id := env.newId, addr := target, saved := env.savedByte,
        enabled := true, armed := true }
    .ok (bp.id, { p with breakpoints := p.breakpoints ++ [bp] })

/-- `process.rs`: `impl Drop for Process`. The teardown attempts every step
unconditionally of earlier failures (each error is only logged), so the
sequence of attempted requests depends only on the process record: nothing
when the pid is zero; else stop-and-reap when running, then detach and
`SIGCONT`, then `SIGKILL`-and-reap when `terminate_on_end` is set. -/
def Process.dropTrace (p : Process) : List Action :=
  if p.pid ≠ 0 then
    (if p.state = .Running then [.killSig .SIGSTOP, .waitReap] else [])
      ++ [.detach, .killSig .SIGCONT]
      ++ (if p.terminate_on_end then [.killSig .SIGKILL, .waitReap] else [])
  else []

/-- One procfs snapshot of the inferior, as `get_addr_offset` reads it:
whether `PfsProcess::new` succeeded, the executable path, the auxiliary
vector (as key/value pairs) and the memory map table, each `none` when the
corresponding procfs read failed. -/
structure ProcSnapshot where
  ok : Bool
  exe : Option String
  auxv : Option (List (Nat × Nat))
  maps : Option (List (Nat × Option String))
deriving DecidableEq, Repr

/-- `libc::AT_ENTRY`. -/
def AT_ENTRY : Nat := 9

/-- The mapping-table search in `get_addr_offset`: the first mapping whose
backing path equals the executable path — or, when the executable path is
unknown, the first mapping backed by any path. A mapping is modelled as
`(start address, backing path?)` where `none` stands for the non-`Path`
`MMapPath` variants. -/
def findMapping (exe : Option String) (maps : List (Nat × Option String)) :
    Option (Nat × Option String) :=
  maps.find? fun m =>
    match m.2, exe with
    | some p, some e => p = e
    | some _, none => true
    | none, _ => false

/-- `process.rs`: `get_addr_offset`. Prefers the auxiliary vector's
`AT_ENTRY` value verbatim; falls back to the start address of the first
matching executable mapping; 0 whenever procfs reads fail or nothing
matches. -/
def get_addr_offset (s : ProcSnapshot) : Nat :=
  if s.ok then
    match (s.auxv.getD []).lookup AT_ENTRY with
    | some entry => entry
    | none =>
      match s.maps with
      | some maps =>
        match findMapping s.exe maps with
        | some first => first.1
        | none => 0
      | none => 0
  else 0

/-- `linux.rs` `launch_program` outcome plus the snapshot and kernel
responses `Process::launch` consumes. -/
structure LaunchEnv where
  launchResult : Except Errno (Option (Nat × Bool))
  snapshot : ProcSnapshot
  kernel : KernelEnv

/-- Outcome of `launch`/`attach`, separating the `unimplemented!` panic of
the inner wait from ordinary results. -/
inductive SpawnOutcome where
  | panicked
  | res (r : Except ProcessError Process)
deriving DecidableEq

/-- `process.rs`: `Process::blocking_wait_on_signal`, for an environment
that answers every poll identically: the first poll either fails, yields a
stop reason, or yields nothing — in which case every later poll also
yields nothing and the 15 s budget expires with `Timeout`. -/
def Process.blocking_wait_on_signal (p : Process) (env : KernelEnv) : SpawnOutcome :=
  match p.wait_on_signal env with
  | .panicked => .panicked
  | .fail e _ => .res (.error e)
  | .done none _ => .res (.error .Timeout)
  | .done (some _) p' => .res (.ok p')

/-- `process.rs`: `Process::launch`. Launch failure maps to `LaunchFailed`,
a missing handle to `NoPid`; otherwise the record is created with
`terminate_on_end := true` and state `Stopped`, the load bias is taken
from procfs, and the initial stop is awaited. -/
def Process.launch (env : LaunchEnv) : SpawnOutcome :=
  match env.launchResult with
  | .error _ => .res (.error .LaunchFailed)
  | .ok none => .res (.error .NoPid)
  | .ok (some (pid, hasStdout)) =>
    let ret : Process :=
      { pid := pid, has_stdout_reader := hasStdout,
        addr_offset := get_addr_offset env.snapshot,
        terminate_on_end := true, state := .Stopped, breakpoints := [] }
    ret.blocking_wait_on_signal env.kernel

/-- Environment for `Process::attach`: the `ptrace::attach` outcome plus
the snapshot and kernel responses. -/
structure AttachEnv where
  attachResult : Except Errno Unit
  snapshot : ProcSnapshot
  kernel : KernelEnv

/-- `process.rs`: `Process::attach`. Attach failure maps to
`AttachFailed`; otherwise the record is created with
`terminate_on_end := false`, no stdout handle, and state `Stopped`, and
the attach-induced stop is awaited. -/
def Process.attach (pid : Nat) (env : AttachEnv) : SpawnOutcome :=
  match env.attachResult with
  | .error _ => .res (.error .AttachFailed)
  | .ok _ =>
    let ret : Process :=
      { pid := pid, has_stdout_reader := false,
        addr_offset := get_addr_offset env.snapshot,
        terminate_on_end := false, state := .Stopped, breakpoints := [] }
    ret.blocking_wait_on_signal env.kernel

/-- `commands.rs`: `enum LocationError`. -/
inductive LocationError where
  | UnknownSourceLocation
  | CouldntParseAddress
  | InvalidHexAddress
  | InvalidLineNumber
  | InvalidFileName
  | TooManyArgs (n : Nat)
  | Empty
deriving DecidableEq, Repr

/-- `commands.rs`: `enum Location`. Note: this enum has exactly the two
variants `Address` and `Line`; there is no `Function` variant in
`commands.rs`, even though `lib.rs` (`set_break`), `elf.rs`
(`get_address`) and `tests/simple.rs` all match on or construct
`Location::Function`. -/
inductive Location where
  | Address (addr : Nat)
  | Line (file : String) (line : Nat)
deriving DecidableEq, Repr

/-- Value of a decimal digit, `none` for any other character
(mirrors the per-character acceptance of Rust's `u64::from_str`). -/
def digitVal10 (c : Char) : Option Nat :=
  if c.isDigit then some (c.toNat - 48) else none

/-- Value of a hexadecimal digit, `none` for any other character
(mirrors `u64::from_str_radix(_, 16)`). -/
def digitVal16 (c : Char) : Option Nat :=
  if c.isDigit then some (c.toNat - 48)
  else if 'a' ≤ c && c ≤ 'f' then some (c.toNat - 87)
  else if 'A' ≤ c && c ≤ 'F' then some (c.toNat - 55)
  else none

/-- Rust's unsigned integer parsing (`u64::from_str` /
`u64::from_str_radix`), over the character list of the token: an optional
leading `+`, then one or more digits of the base, rejecting values that
overflow 64 bits. -/
def parseRadix (digitVal : Char → Option Nat) (base : Nat) (s : List Char) : Option Nat :=
  let t := match s with
    | '+' :: rest => rest
    | _ => s
  if t.isEmpty then none
  else
    (t.foldl
      (fun acc c => acc.bind fun a => (digitVal c).map fun d => a * base + d)
      (some 0)).bind
      fun v => if v < 2 ^ 64 then some v else none

/-- Rust `str::split_whitespace`, over a character list: split on
whitespace runs, dropping empty tokens (accumulator holds the current
token reversed). -/
def splitWsAux : List Char → List Char → List (List Char)
  | [], acc => if acc.isEmpty then [] else [acc.reverse]
  | c :: rest, acc =>
    if c.isWhitespace then
      (if acc.isEmpty then [] else [acc.reverse]) ++ splitWsAux rest []
    else splitWsAux rest (c :: acc)

/-- `str::split_whitespace` on a string. -/
def splitWhitespace (s : String) : List (List Char) :=
  splitWsAux s.toList []

/-- `commands.rs`: `impl FromStr for Location`. One token starting with
`0x` parses as hexadecimal, any other single token must parse as a
decimal `u64` (otherwise `CouldntParseAddress`); two tokens are a
file/line pair; zero or more than two tokens are errors. -/
def Location.fromStr (location : String) : Except LocationError Location :=
  match splitWhitespace location with
  | [addr] =>
    match addr with
    | '0' :: 'x' :: hex_addr =>
      match parseRadix digitVal16 16 hex_addr with
      | some a => .ok (.Address a)
      | none => .error .InvalidHexAddress
    | _ =>
      match parseRadix digitVal10 10 addr with
      | some a => .ok (.Address a)
      | none => .error .CouldntParseAddress
  | [file, line] =>
    match parseRadix digitVal10 10 line with
    | some l => .ok (.Line (String.mk file) l)
    | none => .error .InvalidLineNumber
  | [] => .error .Empty
  | args => .error (.TooManyArgs args.length)

/-- `elf.rs`: `enum ObjectError`. -/
inductive ObjectError where
  | CantOpenElf
  | CouldntParse
  | BadLocation
  | DwarfParsingFailed
  | SectionMissing (s : String)
  | CouldntReadSectionData (s : String)
  | FailedToParseDieTree
deriving DecidableEq, Repr

/-- The `gimli::AttributeValue` variants relevant to the embedded
`elf.rs` code: `DebugStrRef` (an offset into `.debug_str`), `Addr` and
`Udata` (used for `low_pc`/`high_pc`), and `OtherStringForm s` — a
`DW_AT_name` stored in any other string-carrying form (an inline
`DW_FORM_string` value, i.e. `gimli::AttributeValue::String`, or a
DWARF-v5 indexed string once resolved), with `s` the string it denotes.
`find_functions` only ever matches on `DebugStrRef`; every other variant
lands in its `_ => None` arm and the DIE is skipped. -/
inductive AttrValue where
  | DebugStrRef (offset : Nat)
  | Addr (a : Nat)
  | Udata (n : Nat)
  | OtherStringForm (s : String)
deriving DecidableEq, Repr

/-- Result of `die.attr_value(DW_AT_name)`: an error, or an optional
attribute value. -/
inductive AttrLookup where
  | err
  | val (v : Option AttrValue)
deriving DecidableEq, Repr

/-- One debugging information entry as `find_functions` inspects it: its
offset within the unit, whether its tag is `DW_TAG_subprogram`, and the
result of looking up its `DW_AT_name` attribute. -/
structure Die where
  offset : Nat
  isSubprogram : Bool
  nameAttr : AttrLookup
deriving DecidableEq, Repr

/-- One compilation-unit header as the `units()` iterator yields it:
`dies` is the DFS-ordered entry list when `dwarf.unit(header)` succeeds
(`none` when it fails and the unit is skipped), and `treeErr` records
whether `cursor.next_dfs()` eventually errors while walking the tree. -/
structure DwUnit where
  id : Nat
  dies : Option (List Die)
  treeErr : Bool
deriving DecidableEq, Repr

/-- The DWARF data `find_functions` consumes: the successfully yielded
compilation-unit headers, in order, and the `.debug_str` table. -/
structure DwarfModel where
  units : List DwUnit
  strtab : List (Nat × String)
deriving DecidableEq, Repr

/-- The string the *code* extracts for a DIE's name (`elf.rs` lines
224–231): only a `DebugStrRef` attribute resolved through `.debug_str`
yields one. An attribute error, a missing attribute, an unresolvable
offset — and, crucially, a name stored in any other string form
(`OtherStringForm`) — all yield `none` and the DIE is skipped. This is
deliberately *not* the same as the DIE's `DW_AT_name` denotation
(`dieName` below): the difference is what claim C8's counterexample
exhibits. -/
def DwarfModel.dieString (dw : DwarfModel) (d : Die) : Option String :=
  match d.nameAttr with
  | .err => none
  | .val (some (.DebugStrRef o)) => dw.strtab.lookup o
  | .val _ => none

/-- The string a DIE's `DW_AT_name` attribute actually denotes, whatever
its form (the spec's notion of "the DIE's `DW_AT_name`"): a
`DebugStrRef` resolves through `.debug_str`, any other string-carrying
form denotes its string directly; address/offset forms and missing or
unreadable attributes denote nothing. -/
def DwarfModel.dieName (dw : DwarfModel) (d : Die) : Option String :=
  match d.nameAttr with
  | .err => none
  | .val (some (.DebugStrRef o)) => dw.strtab.lookup o
  | .val (some (.OtherStringForm s)) => some s
  | .val _ => none

/-- `elf.rs`: `name_matches` — the query equals the compiled name, or the
demangled compiled name equals the query. The demangler
(`rustc_demangle`, an external crate) is a parameter. -/
def name_matches (demangle : String → String) (name compiled_name : String) : Bool :=
  name == compiled_name || demangle compiled_name == name

/-- The offsets `find_functions` collects inside one unit: the
`DW_TAG_subprogram` entries whose resolved name matches, in DFS order. -/
def findInDies (dw : DwarfModel) (demangle : String → String) (name : String)
    (dies : List Die) : List Nat :=
  (dies.filter fun d =>
    d.isSubprogram &&
      match dw.dieString d with
      | some fn => name_matches demangle name fn
      | none => false).map Die.offset

/-- The unit loop of `find_functions`: unparseable units are skipped, a
DIE-tree walk error aborts the whole query with `FailedToParseDieTree`
(dropping matches found so far), and otherwise each unit contributes its
matching subprogram offsets tagged with the unit. -/
def findFunctionsGo (dw : DwarfModel) (demangle : String → String) (name : String) :
    List DwUnit → Except ObjectError (List (Nat × Nat))
  | [] => .ok []
  | u :: rest =>
    match u.dies with
    | none => findFunctionsGo dw demangle name rest
    | some dies =>
      if u.treeErr then .error .FailedToParseDieTree
      else
        match findFunctionsGo dw demangle name rest with
        | .error e => .error e
        | .ok tail =>
          .ok (((findInDies dw demangle name dies).map fun o => (u.id, o)) ++ tail)

/-- `elf.rs`: `ExecutableFile::find_functions`. -/
def find_functions (dw : DwarfModel) (demangle : String → String) (name : String) :
    Except ObjectError (List (Nat × Nat)) :=
  findFunctionsGo dw demangle name dw.units

/-- `process.rs`: `struct Registers`, treated as opaque register-set
snapshots (spec §3). -/
structure Registers where
  regs : Nat
  fpregs : Nat
deriving DecidableEq, Repr

/-- Responses of `ptrace::getregs` / `ptrace::getregset` consumed by
`get_all_registers`. -/
structure RegsEnv where
  getregs : Except Errno Nat
  getfpregs : Except Errno Nat

/-- `process.rs`: `Process::get_all_registers`: read the general-purpose
set, then the floating-point set, mapping each failure to its own error. -/
def Process.get_all_registers (_p : Process) (env : RegsEnv) :
    Except ProcessError Registers × List Action :=
  match env.getregs with
  | .error _ => (.error .RegisterReadFailed, [.readGpRegs])
  | .ok r =>
    match env.getfpregs with
    | .error _ => (.error .FpRegisterReadFailed, [.readGpRegs, .readFpRegs])
    | .ok f => (.ok { regs := r, fpregs := f }, [.readGpRegs, .readFpRegs])

/-- Errors surfaced by `DebuggerStateMachine` (the `anyhow` layer of
`lib.rs`): a wrapped `ProcessError`, the `get_registers` state bail, or
the unimplemented file+line breakpoint message. -/
inductive DsmError where
  | process (e : ProcessError)
  | notStopped (s : State)
  | lineBreakUnimplemented
deriving DecidableEq, Repr

/-- `lib.rs`: `struct DebuggerStateMachine`, keeping the fields the
embedded operations read: the root process and the loaded ELF's static
entry address (`none` when no ELF file was loaded). -/
structure DebuggerStateMachine where
  root : Process
  elfEntry : Option Nat
deriving DecidableEq, Repr

/-- Wrapping 64-bit subtraction, as Rust's release-mode `u64` `-`. -/
def u64sub (a b : Nat) : Nat := (a % 2 ^ 64 + 2 ^ 64 - b % 2 ^ 64) % 2 ^ 64

/-- `lib.rs`: the load-bias line of `DebuggerStateMachine::start`:
`root.addr_offset = root.addr_offset - elf.map(entry_address).unwrap_or_default()`,
applied to the `get_addr_offset` value stored by `launch`/`attach`. The
ELF static entry is subtracted unconditionally — also when the offset came
from the memory-map fallback or defaulted to 0. -/
def startAddrOffset (s : ProcSnapshot) (elfEntry : Option Nat) : Nat :=
  u64sub (get_addr_offset s) (elfEntry.getD 0)

/-- `lib.rs`: `DebuggerStateMachine::cont` — resume only when the root
process is `Stopped`, otherwise a silent no-op. -/
def DebuggerStateMachine.cont (sm : DebuggerStateMachine) (env : PtraceEnv) :
    Except DsmError DebuggerStateMachine × List Action :=
  if sm.root.state = .Stopped then
    match sm.root.resume env with
    | (.ok p', tr) => (.ok { sm with root := p' }, tr)
    | (.error e, tr) => (.error (.process e), tr)
  else (.ok sm, [])

/-- `lib.rs`: `DebuggerStateMachine::step` — single-step only when the
root process is `Stopped`, otherwise a silent no-op. -/
def DebuggerStateMachine.step (sm : DebuggerStateMachine) (env : PtraceEnv) :
    Except DsmError DebuggerStateMachine × List Action :=
  if sm.root.state = .Stopped then
    match sm.root.step env with
    | (.ok p', tr) => (.ok { sm with root := p' }, tr)
    | (.error e, tr) => (.error (.process e), tr)
  else (.ok sm, [])

/-- `lib.rs`: `DebuggerStateMachine::get_registers` — bail with a state
error before touching the inferior unless the root process is `Stopped`. -/
def DebuggerStateMachine.get_registers (sm : DebuggerStateMachine) (env : RegsEnv) :
    Except DsmError Registers × List Action :=
  if sm.root.state ≠ .Stopped then (.error (.notStopped sm.root.state), [])
  else
    match sm.root.get_all_registers env with
    | (.ok r, tr) => (.ok r, tr)
    | (.error e, tr) => (.error (.process e), tr)

/-- `lib.rs`: `DebuggerStateMachine::set_break`. An `Address` location is
handed to `Process::set_breakpoint` verbatim; a file/line location is
unimplemented. (`lib.rs` also has a `Location::Function` arm, but the
`Location` type of `commands.rs` — the type this `match` scrutinises —
has no such variant; see the C6 analysis.) -/
def DebuggerStateMachine.set_break (sm : DebuggerStateMachine) (location : Location)
    (env : BreakpointEnv) : Except DsmError (Nat × DebuggerStateMachine) :=
  match location with
  | .Address addr =>
    match sm.root.set_breakpoint addr env with
    | .ok (id, p') => .ok (id, { sm with root := p' })
    | .error e => .error (.process e)
  | .Line _ _ => .error .lineBreakUnimplemented

/-- Claim C6 (the code contradicts it): parsing the single token `main` —
which contains non-digit characters and does not start with `0x` — yields
`Err(CouldntParseAddress)`, not a `Function` location. The `Location`
enum of `commands.rs` has no `Function` variant at all, even though
`lib.rs::set_break`, `elf.rs::get_address` and `tests/simple.rs` all
match on or construct `Location::Function`, and `commands.rs`'s own test
`invalid_command_args` asserts this error for `break main.rs`. -/
theorem C6_single_symbol_token_errors :
    Location.fromStr "main" = .error .CouldntParseAddress := by decide

/-- A process about to observe a kill: stopped, tracked pid 7. -/
def pC1 : Process :=
  { pid := 7, has_stdout_reader := false, addr_offset := 0,
    terminate_on_end := true, state := .Stopped, breakpoints := [] }

/-- Kernel responses delivering `WaitStatus::Signaled` (the inferior was
killed by `SIGKILL`); `getsiginfo` fails as the child is gone. -/
def envC1 : KernelEnv :=
  { waitpid := fun _ => .ok (.Signaled 7 .SIGKILL false),
    getsiginfo := fun _ => .error .ESRCH }

/-- Claim C1 counterexample: `wait_on_signal` reports a stop reason with
state `Terminated`, yet the stored process identifier is left at 7 — the
`Signaled` branch, unlike the `Exited` branch, never zeroes the pid. -/
theorem C1_counterexample :
    pC1.wait_on_signal envC1 =
      .done (some { reason := .Terminated, info := .Signalled .SIGKILL,
                    event := none, trap_reason := none })
        { pC1 with state := .Terminated } ∧
    ({ pC1 with state := .Terminated } : Process).pid ≠ 0 := by
  constructor
  · decide
  · decide

/-- Claim C1 (amended): once `wait_on_signal` reports a stop reason with
state `Exited` — under a kernel that reports `Exited` statuses only for
the pid that was asked for — the stored identifier has been zeroed, and a
subsequent `wait_on_signal` call fails with `WaitFailed` whenever
`waitpid` on pid 0 errors (as it does once the only child is reaped).
After `Terminated` the identifier is *not* zeroed. -/
theorem C1_amended (p p' : Process) (env env₂ : KernelEnv) (r : StopReason) (e : Errno)
    (hcons : ∀ c code, env.waitpid p.pid = .ok (.Exited c code) → c = p.pid)
    (hrep : p.wait_on_signal env = .done (some r) p')
    (hex : r.reason = .Exited)
    (herr : env₂.waitpid 0 = .error e) :
    p'.pid = 0 ∧ p'.wait_on_signal env₂ = .fail .WaitFailed p' := by
  have hpid : p'.pid = 0 := by
    cases hw : env.waitpid p.pid with
    | error er => simp [Process.wait_on_signal, hw] at hrep
    | ok ws =>
      cases ws with
      | StillAlive => simp [Process.wait_on_signal, hw] at hrep
      | Exited child code =>
        have hchild : child = p.pid := hcons child code hw
        subst hchild
        cases hg : env.getsiginfo 0 with
        | ok si =>
          simp [Process.wait_on_signal, hw, hg] at hrep
          rw [← hrep.2]
        | error er =>
          simp [Process.wait_on_signal, hw, hg] at hrep
          rw [← hrep.2]
      | Stopped child signal =>
        cases hg : env.getsiginfo p.pid with
        | ok si =>
          simp [Process.wait_on_signal, hw, hg, StopReason.new] at hrep
          rw [← hrep.1] at hex; simp at hex
        | error er =>
          simp [Process.wait_on_signal, hw, hg, StopReason.new] at hrep
          rw [← hrep.1] at hex; simp at hex
      | Signaled child signal core =>
        cases hg : env.getsiginfo p.pid with
        | ok si =>
          simp [Process.wait_on_signal, hw, hg, StopReason.new] at hrep
          rw [← hrep.1] at hex; simp at hex
        | error er =>
          simp [Process.wait_on_signal, hw, hg, StopReason.new] at hrep
          rw [← hrep.1] at hex; simp at hex
      | PtraceEvent child signal event =>
        cases hg : env.getsiginfo p.pid with
        | ok si =>
          simp [Process.wait_on_signal, hw, hg, StopReason.new] at hrep
          rw [← hrep.1] at hex; simp at hex
        | error er =>
          simp [Process.wait_on_signal, hw, hg, StopReason.new] at hrep
          rw [← hrep.1] at hex; simp at hex
      | other => simp [Process.wait_on_signal, hw] at hrep
  refine ⟨hpid, ?_⟩
  unfold Process.wait_on_signal
  rw [hpid, herr]

/-- A process that has reported `Exited`: pid already zeroed. -/
def pC1done : Process :=
  { pid := 0, has_stdout_reader := false, addr_offset := 0,
    terminate_on_end := true, state := .Exited, breakpoints := [] }

/-- Kernel responses for C1's witness: the tracked child exits with code
0, and afterwards `waitpid` refuses pid 0 with `ECHILD`. -/
def envC1exit : KernelEnv :=
  { waitpid := fun pid => if pid = 7 then .ok (.Exited 7 0) else .error .ECHILD,
    getsiginfo := fun _ => .error .ESRCH }

/-- Claim C1 witness: the amended theorem applied to a concrete exit. -/
theorem C1_witness :
    pC1done.pid = 0 ∧
    pC1done.wait_on_signal envC1exit = .fail .WaitFailed pC1done := by
  exact C1_amended pC1 pC1done envC1exit envC1exit
    (StopReason.new .Exited (.Return 0)) .ECHILD
    (by intro c code h; simp [envC1exit, pC1] at h ⊢; omega)
    (by decide) (by decide) (by decide)

/-- A running process polled while an external stop arrives. -/
def pC7 : Process :=
  { pid := 9, has_stdout_reader := false, addr_offset := 0,
    terminate_on_end := true, state := .Running, breakpoints := [] }

/-- Kernel responses for C7: `waitpid` reports a stop by `SIGSTOP` — not
`SIGTRAP` — while `getsiginfo` happens to carry `si_code = TRAP_TRACE`. -/
def envC7 : KernelEnv :=
  { waitpid := fun _ => .ok (.Stopped 9 .SIGSTOP),
    getsiginfo := fun _ => .ok { si_code := 2 } }

/-- Claim C7 counterexample: the stopping signal is `SIGSTOP`, yet
`trap_reason` is populated (`SingleStep`) — the code consults
`getsiginfo` for every returned stop reason, with no `SIGTRAP` guard. -/
theorem C7_counterexample :
    pC7.wait_on_signal envC7 =
      .done (some { reason := .Stopped, info := .Signalled .SIGSTOP,
                    event := none, trap_reason := some .SingleStep })
        { pC7 with state := .Stopped } ∧
    Signal.SIGSTOP ≠ Signal.SIGTRAP :=
  ⟨by decide, by decide⟩

/-- Claim C7 (amended): whenever `wait_on_signal` returns a stop reason —
whatever the wait status and whatever the signal — its `trap_reason` is
taken from the `si_code` of `getsiginfo` on the post-decode stored pid
(`TRAP_TRACE` ↦ `SingleStep`, `SI_KERNEL` ↦ `SoftwareBreak`,
`TRAP_HWBKPT` ↦ `HardwareBreak`, anything else ↦ `None`), and is `None`
when `getsiginfo` fails. -/
theorem C7_amended (p p' : Process) (env : KernelEnv) (r : StopReason)
    (h : p.wait_on_signal env = .done (some r) p') :
    r.trap_reason =
      match env.getsiginfo p'.pid with
      | .ok si => classifyTrap si.si_code
      | .error _ => none := by
  cases hw : env.waitpid p.pid with
  | error er => simp [Process.wait_on_signal, hw] at h
  | ok ws =>
    cases ws with
    | StillAlive => simp [Process.wait_on_signal, hw] at h
    | Exited child code =>
      by_cases hc : child = p.pid
      · subst hc
        cases hg : env.getsiginfo 0 with
        | ok si =>
          simp [Process.wait_on_signal, hw, hg, StopReason.new] at h
          rw [← h.1, ← h.2]; simp [hg]
        | error er =>
          simp [Process.wait_on_signal, hw, hg, StopReason.new] at h
          rw [← h.1, ← h.2]; simp [hg]
      · cases hg : env.getsiginfo p.pid with
        | ok si =>
          simp [Process.wait_on_signal, hw, hc, hg, StopReason.new] at h
          rw [← h.1, ← h.2]; simp [hg]
        | error er =>
          simp [Process.wait_on_signal, hw, hc, hg, StopReason.new] at h
          rw [← h.1, ← h.2]; simp [hg]
    | Stopped child signal =>
      cases hg : env.getsiginfo p.pid with
      | ok si =>
        simp [Process.wait_on_signal, hw, hg, StopReason.new] at h
        rw [← h.1, ← h.2]; simp [hg]
      | error er =>
        simp [Process.wait_on_signal, hw, hg, StopReason.new] at h
        rw [← h.1, ← h.2]; simp [hg]
    | Signaled child signal core =>
      cases hg : env.getsiginfo p.pid with
      | ok si =>
        simp [Process.wait_on_signal, hw, hg, StopReason.new] at h
        rw [← h.1, ← h.2]; simp [hg]
      | error er =>
        simp [Process.wait_on_signal, hw, hg, StopReason.new] at h
        rw [← h.1, ← h.2]; simp [hg]
    | PtraceEvent child signal event =>
      cases hg : env.getsiginfo p.pid with
      | ok si =>
        simp [Process.wait_on_signal, hw, hg, StopReason.new] at h
        rw [← h.1, ← h.2]; simp [hg]
      | error er =>
        simp [Process.wait_on_signal, hw, hg, StopReason.new] at h
        rw [← h.1, ← h.2]; simp [hg]
    | other => simp [Process.wait_on_signal, hw] at h

/-- Claim C7 witness: the amended theorem at the concrete `SIGSTOP` +
`TRAP_TRACE` input. -/
theorem C7_witness :
    ({ reason := .Stopped, info := .Signalled .SIGSTOP, event := none,
       trap_reason := some .SingleStep } : StopReason).trap_reason =
      match envC7.getsiginfo ({ pC7 with state := .Stopped } : Process).pid with
      | .ok si => classifyTrap si.si_code
      | .error _ => none :=
  C7_amended pC7 { pC7 with state := .Stopped } envC7 _ (by decide)

/-- A stopped process with no breakpoints. -/
def pC2nb : Process :=
  { pid := 3, has_stdout_reader := false, addr_offset := 0,
    terminate_on_end := true, state := .Stopped, breakpoints := [] }

/-- Ptrace responses where every primitive succeeds and the program
counter reads 101. -/
def envC2 : PtraceEnv :=
  { readPc := .ok 101, contResult := .ok (), stepResult := .ok (),
    jumpResult := .ok (), processResult := .ok () }

/-- Claim C2 counterexample: `step()` on a stopped process issues the
single-step and returns — its action trace is exactly `[singleStep]`,
with no wait of any kind, so the stop caused by the single-step is *not*
awaited before returning (the repository's own `step_to_end_works` test
calls `blocking_wait_on_signal` right after `step()` for this reason). -/
theorem C2_counterexample :
    pC2nb.step envC2 = (.ok { pC2nb with state := .Stopped }, [.singleStep]) ∧
    Action.waitReap ∉ (pC2nb.step envC2).2 :=
  ⟨by decide, by decide⟩

/-- Claim C2 (amended): `step()` on a stopped process issues the
single-step *without* waiting for the resulting stop (no wait appears in
its trace; the caller waits); the state is `Stopped` when it returns; and
a breakpoint reporting a hit at the current program counter is disarmed
and not re-armed (no arm action appears in the trace). -/
theorem C2_amended (p p' : Process) (env : PtraceEnv) (tr : List Action)
    (hst : p.state = .Stopped)
    (h : p.step env = (.ok p', tr)) :
    p'.state = .Stopped ∧ Action.waitReap ∉ tr ∧ (∀ i, Action.arm i ∉ tr) ∧
    (∀ bp bps, p.hitBreakpoints env = bp :: bps →
      Action.disarm bp.id ∈ tr ∧
      p'.breakpoints =
        updateFirst (hitPred env) (fun b => { b with armed := false }) p.breakpoints) := by
  cases hh : p.hitBreakpoints env with
  | nil =>
    cases hs : env.stepResult with
    | error er => simp [Process.step, hh, hs] at h
    | ok u =>
      simp [Process.step, hh, hs] at h
      obtain ⟨h1, h2⟩ := h
      subst h1; subst h2
      refine ⟨rfl, by simp, fun i => by simp, ?_⟩
      intro bp bps hq
      exact List.noConfusion hq
  | cons bp0 bps0 =>
    cases hpr : env.processResult with
    | error er => simp [Process.step, hh, hpr] at h
    | ok u =>
      cases hs : env.stepResult with
      | error er => simp [Process.step, hh, hpr, hs] at h
      | ok v =>
        by_cases hb : bps0 = []
        · subst hb
          simp [Process.step, hh, hpr, hs] at h
          obtain ⟨h1, h2⟩ := h
          subst h1; subst h2
          refine ⟨rfl, by simp, fun i => by simp, ?_⟩
          intro bp bps hq
          injection hq with hq1 hq2
          subst hq1
          exact ⟨by simp, rfl⟩
        · have hlen : 1 < (p.hitBreakpoints env).length := by
            rw [hh]
            have : 0 < bps0.length := List.length_pos.mpr hb
            simp; omega
          simp [Process.step, hh, hpr, hs, hlen] at h
          obtain ⟨h1, h2⟩ := h
          subst h1; subst h2
          refine ⟨rfl, by simp, fun i => by simp, ?_⟩
          intro bp bps hq
          injection hq with hq1 hq2
          subst hq1
          exact ⟨by simp, rfl⟩

/-- A breakpoint armed at address 100; the program counter will read 101,
so it reports a hit. -/
def bpC2 : Breakpoint :=
  { id := 4, addr := 100, saved := 0x90, enabled := true, armed := true }

/-- A stopped process with the one breakpoint installed. -/
def pC2 : Process :=
  { pid := 3, has_stdout_reader := false, addr_offset := 0,
    terminate_on_end := true, state := .Stopped, breakpoints := [bpC2] }

/-- Claim C2 witness: the amended theorem at a concrete stopped process
with a hit breakpoint. -/
theorem C2_witness :
    ({ pC2 with breakpoints := [{ bpC2 with armed := false }] } : Process).state = .Stopped ∧
    Action.waitReap ∉ ([.disarm 4, .setPc 100, .singleStep] : List Action) ∧
    (∀ i, Action.arm i ∉ ([.disarm 4, .setPc 100, .singleStep] : List Action)) ∧
    (∀ bp bps, pC2.hitBreakpoints envC2 = bp :: bps →
      Action.disarm bp.id ∈ ([.disarm 4, .setPc 100, .singleStep] : List Action) ∧
      ({ pC2 with breakpoints := [{ bpC2 with armed := false }] } : Process).breakpoints =
        updateFirst (hitPred envC2) (fun b => { b with armed := false }) pC2.breakpoints) :=
  C2_amended pC2 { pC2 with breakpoints := [{ bpC2 with armed := false }] } envC2
    [.disarm 4, .setPc 100, .singleStep] (by decide) (by decide)

/-- Claim C5: `resume()` on a stopped process — when no breakpoint
reports a hit at the current program counter, the trace is a plain
continue; when one does, the first hit breakpoint is stepped over
(rewind, disarm, single-step, reap the stop, re-arm) and then the
continue is issued, with the clash logged first when more than one
reported a hit; in every success case the state is `Running`. -/
theorem C5_resume_behaviour (p p' : Process) (env : PtraceEnv) (tr : List Action)
    (hst : p.state = .Stopped)
    (h : p.resume env = (.ok p', tr)) :
    p'.state = .Running ∧
    (p.hitBreakpoints env = [] → tr = [.contExec]) ∧
    (∀ bp bps, p.hitBreakpoints env = bp :: bps →
      tr = (if bps = [] then [] else [Action.logClash]) ++
        [.setPc bp.addr, .disarm bp.id, .singleStep, .waitReap, .arm bp.id, .contExec]) := by
  cases hh : p.hitBreakpoints env with
  | nil =>
    cases hc : env.contResult with
    | error er => simp [Process.resume, hh, hc] at h
    | ok u =>
      simp [Process.resume, hh, hc] at h
      obtain ⟨h1, h2⟩ := h
      subst h1; subst h2
      refine ⟨rfl, fun _ => rfl, ?_⟩
      intro bp bps hq
      exact List.noConfusion hq
  | cons bp0 bps0 =>
    cases hj : env.jumpResult with
    | error er => simp [Process.resume, hh, hj] at h
    | ok u =>
      cases hpr : env.processResult with
      | error er => simp [Process.resume, hh, hj, hpr] at h
      | ok v =>
        cases hc : env.contResult with
        | error er => simp [Process.resume, hh, hj, hpr, hc] at h
        | ok w =>
          by_cases hb : bps0 = []
          · subst hb
            simp [Process.resume, hh, hj, hpr, hc] at h
            obtain ⟨h1, h2⟩ := h
            subst h1; subst h2
            refine ⟨rfl, ?_, ?_⟩
            · intro hq; exact List.noConfusion hq
            · intro bp bps hq
              injection hq with hq1 hq2
              subst hq1; subst hq2
              simp
          · have hpos : 0 < bps0.length := List.length_pos.mpr hb
            have hlen : 1 < (p.hitBreakpoints env).length := by
              rw [hh]; simp; omega
            simp [Process.resume, hh, hj, hpr, hc, hlen] at h
            obtain ⟨h1, h2⟩ := h
            subst h1; subst h2
            refine ⟨rfl, ?_, ?_⟩
            · intro hq; exact List.noConfusion hq
            · intro bp bps hq
              injection hq with hq1 hq2
              subst hq1; subst hq2
              simp [hb, hpos]

/-- A stopped process with one armed breakpoint that reports a hit under
`envC2` (program counter 101 = 100 + 1). -/
def pC5 : Process :=
  { pid := 6, has_stdout_reader := false, addr_offset := 0,
    terminate_on_end := true, state := .Stopped,
    breakpoints := [{ id := 2, addr := 100, saved := 0x90, enabled := true, armed := true }] }

/-- Claim C5 witness: the theorem at a concrete one-hit resume. -/
theorem C5_witness :
    ({ pC5 with
        state := .Running
        breakpoints := updateFirst (hitPred envC2) (fun b => { b with armed := true })
          pC5.breakpoints } : Process).state = .Running ∧
    (pC5.hitBreakpoints envC2 = [] →
      ([.setPc 100, .disarm 2, .singleStep, .waitReap, .arm 2, .contExec] : List Action) =
        [.contExec]) ∧
    (∀ bp bps, pC5.hitBreakpoints envC2 = bp :: bps →
      ([.setPc 100, .disarm 2, .singleStep, .waitReap, .arm 2, .contExec] : List Action) =
        (if bps = [] then [] else [Action.logClash]) ++
          [.setPc bp.addr, .disarm bp.id, .singleStep, .waitReap, .arm bp.id, .contExec]) :=
  C5_resume_behaviour pC5
    { pC5 with
      state := .Running
      breakpoints := updateFirst (hitPred envC2) (fun b => { b with armed := true })
        pC5.breakpoints } envC2
    [.setPc 100, .disarm 2, .singleStep, .waitReap, .arm 2, .contExec]
    (by decide) (by decide)

/-- A state machine whose root process stores a nonzero load bias. -/
def smC3 : DebuggerStateMachine :=
  { root := { pid := 1, has_stdout_reader := false, addr_offset := 16,
              terminate_on_end := true, state := .Stopped, breakpoints := [] },
    elfEntry := some 0x1000 }

/-- A breakpoint-installation environment that succeeds. -/
def bpenvC3 : BreakpointEnv :=
  { newResult := .ok (), newId := 0, savedByte := 0x55 }

/-- Claim C3 counterexample: with stored load bias 16, `set_break` on
`Location::Address(32)` installs the breakpoint at 48 = 32 + 16 — the
bias *is* added (`set_breakpoint` computes `addr + self.addr_offset`) —
not at exactly 32 as the claim states. -/
theorem C3_counterexample :
    smC3.set_break (.Address 32) bpenvC3 =
      .ok (0, { smC3 with root := { smC3.root with breakpoints :=
        [{ id := 0, addr := 48, saved := 0x55, enabled := true, armed := true }] } }) ∧
    (48 : Nat) ≠ 32 :=
  ⟨by decide, by decide⟩

/-- Claim C3 (amended): `set_break` on `Location::Address(a)` installs the
breakpoint at `a + addr_offset` (wrapping 64-bit addition of the stored
load bias), appended to the breakpoint collection. -/
theorem C3_amended (sm sm' : DebuggerStateMachine) (a id : Nat) (env : BreakpointEnv)
    (h : sm.set_break (.Address a) env = .ok (id, sm')) :
    sm'.root.breakpoints.map Breakpoint.addr =
      sm.root.breakpoints.map Breakpoint.addr ++ [(a + sm.root.addr_offset) % 2 ^ 64] := by
  cases hn : env.newResult with
  | error er => simp [DebuggerStateMachine.set_break, Process.set_breakpoint, hn] at h
  | ok u =>
    simp [DebuggerStateMachine.set_break, Process.set_breakpoint, hn] at h
    rw [← h.2]
    simp

/-- Claim C3 witness: the amended theorem at the concrete bias-16 input. -/
theorem C3_witness :
    ({ smC3 with root := { smC3.root with breakpoints :=
        [{ id := 0, addr := 48, saved := 0x55, enabled := true, armed := true }] } }
      : DebuggerStateMachine).root.breakpoints.map Breakpoint.addr =
      smC3.root.breakpoints.map Breakpoint.addr ++ [(32 + smC3.root.addr_offset) % 2 ^ 64] :=
  C3_amended smC3
    { smC3 with root := { smC3.root with breakpoints :=
        [{ id := 0, addr := 48, saved := 0x55, enabled := true, armed := true }] } }
    32 0 bpenvC3 (by decide)

/-- A procfs snapshot with no `AT_ENTRY` in the auxiliary vector and a
first executable-backed mapping starting at `0x5000`. -/
def snapC4 : ProcSnapshot :=
  { ok := true, exe := some "/bin/t", auxv := some [],
    maps := some [(0x5000, some "/bin/t")] }

/-- Claim C4 counterexample: with `AT_ENTRY` absent, mapping start
`0x5000` and ELF static entry `0x1000`, the bias stored by `start` is
`0x4000` — the static entry is subtracted from the fallback value too —
and not the claimed bare mapping start `0x5000`. -/
theorem C4_counterexample :
    startAddrOffset snapC4 (some 0x1000) = 0x4000 ∧ (0x4000 : Nat) ≠ 0x5000 :=
  ⟨by decide, by decide⟩

/-- Claim C4 (amended): the bias stored after `start` is the
`get_addr_offset` value minus (wrapping 64-bit) the ELF static entry,
where the static entry is subtracted in *every* case: with `AT_ENTRY`
present the bias is `AT_ENTRY − static_entry` (as the claim says); with
it absent the bias is `mapping.start − static_entry` (not bare
`mapping.start`); with neither source available it is `0 − static_entry`
(which is 0 exactly when no ELF entry was loaded or the entry is 0). -/
theorem C4_amended (s : ProcSnapshot) (elfEntry : Option Nat) (hok : s.ok = true) :
    (∀ e, (s.auxv.getD []).lookup AT_ENTRY = some e →
      startAddrOffset s elfEntry = u64sub e (elfEntry.getD 0)) ∧
    (∀ start path, (s.auxv.getD []).lookup AT_ENTRY = none →
      findMapping s.exe (s.maps.getD []) = some (start, path) → s.maps ≠ none →
      startAddrOffset s elfEntry = u64sub start (elfEntry.getD 0)) ∧
    ((s.auxv.getD []).lookup AT_ENTRY = none →
      (s.maps = none ∨ findMapping s.exe (s.maps.getD []) = none) →
      startAddrOffset s elfEntry = u64sub 0 (elfEntry.getD 0)) := by
  refine ⟨?_, ?_, ?_⟩
  · intro e he
    simp [startAddrOffset, get_addr_offset, hok, he]
  · intro start path he hm hmaps
    cases hms : s.maps with
    | none => exact absurd hms hmaps
    | some maps =>
      rw [hms] at hm
      simp at hm
      simp [startAddrOffset, get_addr_offset, hok, he, hms, hm]
  · intro he hnone
    cases hnone with
    | inl hms => simp [startAddrOffset, get_addr_offset, hok, he, hms]
    | inr hfind =>
      cases hms : s.maps with
      | none => simp [startAddrOffset, get_addr_offset, hok, he, hms]
      | some maps =>
        rw [hms] at hfind
        simp at hfind
        simp [startAddrOffset, get_addr_offset, hok, he, hms, hfind]

/-- Claim C4 witness: the amended theorem at the concrete fallback input. -/
theorem C4_witness :
    startAddrOffset snapC4 (some 0x1000) = u64sub 0x5000 ((some 0x1000).getD 0) :=
  (C4_amended snapC4 (some 0x1000) (by decide)).2.1 0x5000 (some "/bin/t")
    (by decide) (by decide) (by decide)

/-- Claim C10: on a `DebuggerStateMachine` whose root process is not
`Stopped`, `cont()` and `step()` return `Ok` as silent no-ops — no
request of any kind is issued and the machine is unchanged — while
`get_registers()` returns the state error without any register read. -/
theorem C10_non_stopped_guards (sm : DebuggerStateMachine) (penv : PtraceEnv) (renv : RegsEnv)
    (h : sm.root.state ≠ .Stopped) :
    sm.cont penv = (.ok sm, []) ∧ sm.step penv = (.ok sm, []) ∧
    sm.get_registers renv = (.error (.notStopped sm.root.state), []) := by
  refine ⟨?_, ?_, ?_⟩ <;>
    simp [DebuggerStateMachine.cont, DebuggerStateMachine.step,
      DebuggerStateMachine.get_registers, h]

/-- A state machine whose root process is running. -/
def smC10 : DebuggerStateMachine :=
  { root := { pid := 2, has_stdout_reader := false, addr_offset := 0,
              terminate_on_end := true, state := .Running, breakpoints := [] },
    elfEntry := none }

/-- Claim C10 witness: the guard theorem at a concrete running machine. -/
theorem C10_witness :
    smC10.cont envC2 = (.ok smC10, []) ∧ smC10.step envC2 = (.ok smC10, []) ∧
    smC10.get_registers { getregs := .ok 1, getfpregs := .ok 2 } =
      (.error (.notStopped smC10.root.state), []) :=
  C10_non_stopped_guards smC10 envC2 { getregs := .ok 1, getfpregs := .ok 2 } (by decide)

/-- Helper: `wait_on_signal` never changes the `terminate_on_end` flag of
the process record it returns. -/
theorem wait_on_signal_keeps_flag (p p' : Process) (env : KernelEnv) (r : Option StopReason)
    (h : p.wait_on_signal env = .done r p') :
    p'.terminate_on_end = p.terminate_on_end := by
  cases hw : env.waitpid p.pid with
  | error er => simp [Process.wait_on_signal, hw] at h
  | ok ws =>
    cases ws with
    | StillAlive =>
      simp [Process.wait_on_signal, hw] at h
      obtain ⟨h1, h2⟩ := h; subst h2; rfl
    | Exited child code =>
      by_cases hc : child = p.pid
      · subst hc
        cases hg : env.getsiginfo 0 with
        | ok si =>
          simp [Process.wait_on_signal, hw, hg] at h
          obtain ⟨h1, h2⟩ := h; subst h2; rfl
        | error er =>
          simp [Process.wait_on_signal, hw, hg] at h
          obtain ⟨h1, h2⟩ := h; subst h2; rfl
      · cases hg : env.getsiginfo p.pid with
        | ok si =>
          simp [Process.wait_on_signal, hw, hc, hg] at h
          obtain ⟨h1, h2⟩ := h; subst h2; rfl
        | error er =>
          simp [Process.wait_on_signal, hw, hc, hg] at h
          obtain ⟨h1, h2⟩ := h; subst h2; rfl
    | Stopped child signal =>
      cases hg : env.getsiginfo p.pid with
      | ok si =>
        simp [Process.wait_on_signal, hw, hg] at h
        obtain ⟨h1, h2⟩ := h; subst h2; rfl
      | error er =>
        simp [Process.wait_on_signal, hw, hg] at h
        obtain ⟨h1, h2⟩ := h; subst h2; rfl
    | Signaled child signal core =>
      cases hg : env.getsiginfo p.pid with
      | ok si =>
        simp [Process.wait_on_signal, hw, hg] at h
        obtain ⟨h1, h2⟩ := h; subst h2; rfl
      | error er =>
        simp [Process.wait_on_signal, hw, hg] at h
        obtain ⟨h1, h2⟩ := h; subst h2; rfl
    | PtraceEvent child signal event =>
      cases hg : env.getsiginfo p.pid with
      | ok si =>
        simp [Process.wait_on_signal, hw, hg] at h
        obtain ⟨h1, h2⟩ := h; subst h2; rfl
      | error er =>
        simp [Process.wait_on_signal, hw, hg] at h
        obtain ⟨h1, h2⟩ := h; subst h2; rfl
    | other => simp [Process.wait_on_signal, hw] at h

/-- Helper: a successfully launched process has `terminate_on_end` set. -/
theorem launch_flag (env : LaunchEnv) (q : Process)
    (h : Process.launch env = .res (.ok q)) : q.terminate_on_end = true := by
  cases hl : env.launchResult with
  | error er => simp [Process.launch, hl] at h
  | ok opt =>
    cases opt with
    | none => simp [Process.launch, hl] at h
    | some pr =>
      obtain ⟨pid0, hs⟩ := pr
      cases hwo : Process.wait_on_signal
          { pid := pid0, has_stdout_reader := hs,
            addr_offset := get_addr_offset env.snapshot,
            terminate_on_end := true, state := .Stopped, breakpoints := [] } env.kernel with
      | panicked => simp [Process.launch, Process.blocking_wait_on_signal, hl, hwo] at h
      | fail e pp => simp [Process.launch, Process.blocking_wait_on_signal, hl, hwo] at h
      | done rr pp =>
        cases rr with
        | none => simp [Process.launch, Process.blocking_wait_on_signal, hl, hwo] at h
        | some r0 =>
          simp [Process.launch, Process.blocking_wait_on_signal, hl, hwo] at h
          rw [← h]
          exact wait_on_signal_keeps_flag _ pp env.kernel _ hwo

/-- Helper: a successfully attached process has `terminate_on_end`
cleared. -/
theorem attach_flag (pid : Nat) (env : AttachEnv) (a : Process)
    (h : Process.attach pid env = .res (.ok a)) : a.terminate_on_end = false := by
  cases hl : env.attachResult with
  | error er => simp [Process.attach, hl] at h
  | ok u =>
    cases hwo : Process.wait_on_signal
        { pid := pid, has_stdout_reader := false,
          addr_offset := get_addr_offset env.snapshot,
          terminate_on_end := false, state := .Stopped, breakpoints := [] } env.kernel with
    | panicked => simp [Process.attach, Process.blocking_wait_on_signal, hl, hwo] at h
    | fail e pp => simp [Process.attach, Process.blocking_wait_on_signal, hl, hwo] at h
    | done rr pp =>
      cases rr with
      | none => simp [Process.attach, Process.blocking_wait_on_signal, hl, hwo] at h
      | some r0 =>
        simp [Process.attach, Process.blocking_wait_on_signal, hl, hwo] at h
        rw [← h]
        exact wait_on_signal_keeps_flag _ pp env.kernel _ hwo

/-- Claim C9: dropping a `Process` with a nonzero stored pid always
attempts the detach; the `SIGKILL` is in the attempted teardown sequence
iff `terminate_on_end` is set, and in that case the sequence ends with
the kill followed by the reaping wait; `launch` constructs the record
with `terminate_on_end = true` and `attach` with `false`. Every teardown
step is attempted regardless of earlier failures — the trace is a total
function of the record, mirroring the log-and-continue `Drop` body. -/
theorem C9_teardown (p q a : Process) (lenv : LaunchEnv) (aenv : AttachEnv) (pid : Nat)
    (hpid : p.pid ≠ 0)
    (hl : Process.launch lenv = .res (.ok q))
    (ha : Process.attach pid aenv = .res (.ok a)) :
    Action.detach ∈ p.dropTrace ∧
    ((Action.killSig .SIGKILL ∈ p.dropTrace) ↔ p.terminate_on_end = true) ∧
    (p.terminate_on_end = true →
      List.IsSuffix [Action.killSig .SIGKILL, Action.waitReap] p.dropTrace) ∧
    q.terminate_on_end = true ∧ a.terminate_on_end = false := by
  refine ⟨?_, ?_, ?_, launch_flag lenv q hl, attach_flag pid aenv a ha⟩
  · by_cases hf : p.terminate_on_end <;> by_cases hs : p.state = .Running <;>
      simp [Process.dropTrace, hpid, hf, hs]
  · by_cases hf : p.terminate_on_end <;> by_cases hs : p.state = .Running <;>
      simp [Process.dropTrace, hpid, hf, hs]
  · intro hf
    by_cases hs : p.state = .Running <;> simp [Process.dropTrace, hpid, hf, hs]
    · exact ⟨[.killSig .SIGSTOP, .waitReap, .detach, .killSig .SIGCONT], rfl⟩
    · exact ⟨[.detach, .killSig .SIGCONT], rfl⟩

/-- A launched-style process record about to be dropped. -/
def pC9 : Process :=
  { pid := 1, has_stdout_reader := false, addr_offset := 0,
    terminate_on_end := true, state := .Running, breakpoints := [] }

/-- Kernel responses for C9: the inferior reports a `SIGTRAP` stop with a
software-break `si_code`. -/
def kenvC9 : KernelEnv :=
  { waitpid := fun _ => .ok (.Stopped 5 .SIGTRAP),
    getsiginfo := fun _ => .ok { si_code := 0x80 } }

/-- An empty procfs snapshot (every read fails, bias 0). -/
def snapC9 : ProcSnapshot :=
  { ok := false, exe := none, auxv := none, maps := none }

/-- A launch environment that succeeds with child pid 5. -/
def lenvC9 : LaunchEnv :=
  { launchResult := .ok (some (5, true)), snapshot := snapC9, kernel := kenvC9 }

/-- An attach environment that succeeds. -/
def aenvC9 : AttachEnv :=
  { attachResult := .ok (), snapshot := snapC9, kernel := kenvC9 }

/-- The process record `Process.launch lenvC9` returns. -/
def qC9 : Process :=
  { pid := 5, has_stdout_reader := true, addr_offset := 0,
    terminate_on_end := true, state := .Stopped, breakpoints := [] }

/-- The process record `Process.attach 11 aenvC9` returns. -/
def aC9 : Process :=
  { pid := 11, has_stdout_reader := false, addr_offset := 0,
    terminate_on_end := false, state := .Stopped, breakpoints := [] }

/-- Claim C9 witness: the teardown theorem at concrete launch, attach and
drop inputs. -/
theorem C9_witness :
    Action.detach ∈ pC9.dropTrace ∧
    ((Action.killSig .SIGKILL ∈ pC9.dropTrace) ↔ pC9.terminate_on_end = true) ∧
    (pC9.terminate_on_end = true →
      List.IsSuffix [Action.killSig .SIGKILL, Action.waitReap] pC9.dropTrace) ∧
    qC9.terminate_on_end = true ∧ aC9.terminate_on_end = false :=
  C9_teardown pC9 qC9 aC9 lenvC9 aenvC9 11 (by decide) (by decide) (by decide)

/-- Helper: membership in the per-unit match list, in propositional
form: exactly the subprogram entries whose resolved name equals the query
or whose demangled resolved name equals the query. -/
theorem mem_findInDies (dw : DwarfModel) (demangle : String → String) (name : String)
    (dies : List Die) (o : Nat) :
    o ∈ findInDies dw demangle name dies ↔
      ∃ d ∈ dies, d.offset = o ∧ d.isSubprogram = true ∧
        ∃ fn, dw.dieString d = some fn ∧ (name = fn ∨ demangle fn = name) := by
  unfold findInDies
  rw [List.mem_map]
  constructor
  · rintro ⟨d, hd, hoff⟩
    rw [List.mem_filter] at hd
    obtain ⟨hmem, hpred⟩ := hd
    cases hfn : dw.dieString d with
    | none => rw [hfn] at hpred; simp at hpred
    | some fn =>
      rw [hfn] at hpred
      simp only [Bool.and_eq_true] at hpred
      refine ⟨d, hmem, hoff, hpred.1, fn, hfn, ?_⟩
      have := hpred.2
      simp only [name_matches, Bool.or_eq_true, beq_iff_eq] at this
      exact this
  · rintro ⟨d, hmem, hoff, hsub, fn, hfn, hor⟩
    refine ⟨d, ?_, hoff⟩
    rw [List.mem_filter]
    refine ⟨hmem, ?_⟩
    rw [hfn]
    simp only [Bool.and_eq_true]
    refine ⟨hsub, ?_⟩
    simp only [name_matches, Bool.or_eq_true, beq_iff_eq]
    exact hor

/-- Helper: on well-formed input (every yielded unit parseable, no
DIE-tree walk errors) the unit loop succeeds and returns exactly the
matching subprogram entries of every unit. -/
theorem findFunctionsGo_ok (dw : DwarfModel) (demangle : String → String) (name : String)
    (us : List DwUnit)
    (hdies : ∀ u ∈ us, u.dies ≠ none)
    (htree : ∀ u ∈ us, u.treeErr = false) :
    ∃ r, findFunctionsGo dw demangle name us = .ok r ∧
      ∀ uid off, ((uid, off) ∈ r ↔
        ∃ u ∈ us, u.id = uid ∧ ∃ dies, u.dies = some dies ∧
          ∃ d ∈ dies, d.offset = off ∧ d.isSubprogram = true ∧
            ∃ fn, dw.dieString d = some fn ∧ (name = fn ∨ demangle fn = name)) := by
  induction us with
  | nil => exact ⟨[], rfl, by simp⟩
  | cons u rest ih =>
    obtain ⟨r, hr, hiff⟩ := ih (fun v hv => hdies v (List.mem_cons_of_mem _ hv))
      (fun v hv => htree v (List.mem_cons_of_mem _ hv))
    cases hd : u.dies with
    | none => exact absurd hd (hdies u (List.mem_cons_self _ _))
    | some dies =>
      have ht : u.treeErr = false := htree u (List.mem_cons_self _ _)
      refine ⟨((findInDies dw demangle name dies).map fun o => (u.id, o)) ++ r, ?_, ?_⟩
      · simp [findFunctionsGo, hd, ht, hr]
      · intro uid off
        rw [List.mem_append, List.mem_map, hiff uid off]
        constructor
        · rintro (⟨o, ho, hoeq⟩ | ⟨v, hv, hrest⟩)
          · injection hoeq with huid hoff
            subst huid; subst hoff
            obtain ⟨d, hdm, hdoff, hrest⟩ := (mem_findInDies dw demangle name dies o).mp ho
            exact ⟨u, List.mem_cons_self _ _, rfl, dies, hd, d, hdm, hdoff, hrest⟩
          · exact ⟨v, List.mem_cons_of_mem _ hv, hrest⟩
        · rintro ⟨v, hv, hvid, dies', hdies', d, hdm, hdoff, hrest⟩
          rcases List.mem_cons.mp hv with hv1 | hv2
          · subst hv1
            left
            refine ⟨off, ?_, by rw [hvid]⟩
            rw [hd] at hdies'
            injection hdies' with hde
            subst hde
            exact (mem_findInDies dw demangle name dies off).mpr ⟨d, hdm, hdoff, hrest⟩
          · right
            exact ⟨v, hv2, hvid, dies', hdies', d, hdm, hdoff, hrest⟩

/-- The identity demangler, for C8's concrete inputs. -/
def demC8 : String → String := fun s => s

/-- A `DW_TAG_subprogram` DIE whose `DW_AT_name` is stored in a
string-carrying form other than `DebugStrRef` (e.g. an inline
`DW_FORM_string`) and denotes exactly `my_func`. -/
def dieC8bad : Die :=
  { offset := 5, isSubprogram := true,
    nameAttr := .val (some (.OtherStringForm "my_func")) }

/-- A well-formed one-unit DWARF model containing only that subprogram. -/
def dwC8bad : DwarfModel :=
  { units := [{ id := 1, dies := some [dieC8bad], treeErr := false }],
    strtab := [] }

/-- Claim C8 counterexample: well-formed input (the unit parses, the walk
succeeds) holding a `DW_TAG_subprogram` whose `DW_AT_name` equals the
query `my_func` exactly — yet `find_functions` returns the empty list,
because the name is not stored as a `DebugStrRef` and `elf.rs`'s
`_ => None` arm (lines 224–231) silently skips the DIE. So the search
does not return *every* subprogram whose `DW_AT_name` equals the query. -/
theorem C8_counterexample :
    (∀ u ∈ dwC8bad.units, u.dies ≠ none) ∧
    (∀ u ∈ dwC8bad.units, u.treeErr = false) ∧
    dwC8bad.dieName dieC8bad = some "my_func" ∧
    dieC8bad.isSubprogram = true ∧
    find_functions dwC8bad demC8 "my_func" = .ok [] :=
  ⟨by decide, by decide, by decide, by decide, by decide⟩

/-- Claim C8 (amended): on well-formed DWARF data, `find_functions` walks
every yielded compilation unit's DIE tree and returns exactly the
`DW_TAG_subprogram` entries whose `DW_AT_name` is stored as a
`DebugStrRef` resolvable through `.debug_str` and whose resolved string
equals the query, or whose demangled resolved string equals the query —
both comparisons plain (case-sensitive) string equality. A subprogram
whose name is stored in any other form is skipped even when its name
equals the query exactly. -/
theorem C8_amended (dw : DwarfModel) (demangle : String → String) (name : String)
    (hdies : ∀ u ∈ dw.units, u.dies ≠ none)
    (htree : ∀ u ∈ dw.units, u.treeErr = false) :
    ∃ r, find_functions dw demangle name = .ok r ∧
      ∀ uid off, ((uid, off) ∈ r ↔
        ∃ u ∈ dw.units, u.id = uid ∧ ∃ dies, u.dies = some dies ∧
          ∃ d ∈ dies, d.offset = off ∧ d.isSubprogram = true ∧
            ∃ fn, dw.dieString d = some fn ∧ (name = fn ∨ demangle fn = name)) :=
  findFunctionsGo_ok dw demangle name dw.units hdies htree

/-- The DIE list of the C8 witness unit: one matching subprogram (offset
5, name via `DebugStrRef`), one non-subprogram with the same name
(offset 9), one subprogram with a different name (offset 13), and one
subprogram whose matching name is stored inline rather than as a
`DebugStrRef` (offset 17) — the last one is skipped by the search. -/
def diesC8 : List Die :=
  [ { offset := 5, isSubprogram := true, nameAttr := .val (some (.DebugStrRef 0)) },
    { offset := 9, isSubprogram := false, nameAttr := .val (some (.DebugStrRef 0)) },
    { offset := 13, isSubprogram := true, nameAttr := .val (some (.DebugStrRef 4)) },
    { offset := 17, isSubprogram := true,
      nameAttr := .val (some (.OtherStringForm "my_func")) } ]

/-- A concrete one-unit DWARF model for the C8 witness. -/
def dwC8 : DwarfModel :=
  { units := [{ id := 1, dies := some diesC8, treeErr := false }],
    strtab := [(0, "my_func"), (4, "other")] }

/-- Claim C8 witness: on the concrete model the hypotheses hold, the
amended theorem applies, and the `DebugStrRef`-named matching subprogram
at offset 5 of unit 1 is returned (the whole result being `[(1, 5)]`:
the inline-named subprogram at offset 17 is not in it). -/
theorem C8_witness :
    (∀ u ∈ dwC8.units, u.dies ≠ none) ∧ (∀ u ∈ dwC8.units, u.treeErr = false) ∧
    (1, 5) ∈ (find_functions dwC8 demC8 "my_func").toOption.getD [] ∧
    find_functions dwC8 demC8 "my_func" = .ok [(1, 5)] := by
  refine ⟨by decide, by decide, ?_, by decide⟩
  obtain ⟨r, hr, hiff⟩ := C8_amended dwC8 demC8 "my_func" (by decide) (by decide)
  rw [hr]
  exact (hiff 1 5).mpr
    ⟨{ id := 1, dies := some diesC8, treeErr := false }, by simp [dwC8], rfl,
      diesC8, rfl,
      { offset := 5, isSubprogram := true, nameAttr := .val (some (.DebugStrRef 0)) },
      by simp [diesC8], rfl, rfl, "my_func", by decide, Or.inl rfl⟩

end Rustybug
